import Mathlib

/-!
Shallow embedding of `177dl.py` (the `ComicDownloader` comic-gallery crawler
and image downloader) and proofs about its crawling, extraction, dedup,
pagination and download-skip behaviour.

Modelling conventions:
* Strings are Lean `String`s; most character-level work happens on `List Char`
  via `String.toList` / `String.mk`.
* HTML parsing is a collaborator: a fetched-and-parsed page is a `PageDoc`
  record holding exactly the queries the code performs (the `h1.entry-title`
  text, the first `h1` text, the `img` tags with their three attributes of
  interest, and the hrefs of `a[href]` tags inside `div.pagination`).
  Text fields model `get_text(strip=True)` results.
* HTTP is a collaborator: a `World` maps a URL to either a raised exception
  (`FetchResult.exn`, covering timeouts/connection errors/parse crashes) or a
  parsed response with its HTTP status code.
* Python's `str.strip()` is modelled over the ASCII whitespace characters;
  `int(...)` is modelled as optional surrounding whitespace, an optional
  sign and a nonempty run of ASCII digits (PEP-515 underscore grouping and
  non-ASCII digits are not modelled; no claim depends on them).
-/

namespace Comic177

/-- The filesystem-unsafe characters removed by `re.sub(r'[\\/*?:"<>|]', '', title)`. -/
def isForbidden (c : Char) : Bool :=
  c = '\\' || c = '/' || c = '*' || c = '?' || c = ':' || c = '"' ||
    c = '<' || c = '>' || c = '|'

/-- ASCII whitespace stripped by Python's `str.strip()`. -/
def isPyWS (c : Char) : Bool :=
  c = ' ' || c = '\t' || c = '\n' || c = '\r' || c = '\x0b' || c = '\x0c'

/-- Drop the forbidden characters, as `re.sub(r'[\\/*?:"<>|]', '', s)` does. -/
def stripForbidden (l : List Char) : List Char :=
  l.filter (fun c => !(isForbidden c))

/-- Python `str.strip()`: remove leading and trailing whitespace. -/
def trimChars (l : List Char) : List Char :=
  ((l.dropWhile isPyWS).reverse.dropWhile isPyWS).reverse

/-- Line 33: `title = re.sub(r'[\\/*?:"<>|]', '', title).strip()`, also reapplied
at line 171 of `main` to build the output directory name. -/
def sanitize (s : String) : String :=
  String.mk (trimChars (stripForbidden s.toList))

/-- Boolean test that `n` is a prefix of `h` (character lists). -/
def leadsWith : List Char → List Char → Bool
  | [], _ => true
  | _ :: _, [] => false
  | a :: as, b :: bs => a = b && leadsWith as bs

/-- Boolean substring test, modelling Python's `needle in haystack`. -/
def hasSub (n : List Char) : List Char → Bool
  | [] => n.isEmpty
  | c :: h => leadsWith n (c :: h) || hasSub n h

/-- Lowercasing used by `src.lower()`. -/
def lowerStr (l : List Char) : List Char := l.map Char.toLower

/-- The per-URL filter of lines 39, 47 and 84:
`'177picyy.com' in src and any(ext in src.lower() for ext in ['.jpg', '.jpeg', '.png', '.gif'])`. -/
def filterOk (src : String) : Bool :=
  let l := src.toList
  hasSub ("177picyy.com".toList) l &&
    (hasSub (".jpg".toList) (lowerStr l) || hasSub (".jpeg".toList) (lowerStr l) ||
      hasSub (".png".toList) (lowerStr l) || hasSub (".gif".toList) (lowerStr l))

/-- Value of a nonempty digit run, most significant first. -/
def digitsVal (l : List Char) : Nat :=
  l.foldl (fun n c => 10 * n + (c.toNat - ('0').toNat)) 0

/-- Python `int(s)`: strip surrounding whitespace, allow one sign, then a
nonempty run of digits; anything else raises `ValueError`, modelled as `none`. -/
def pyInt (s : String) : Option Int :=
  match trimChars s.toList with
  | [] => none
  | '-' :: ds =>
    if ds.isEmpty then none
    else if ds.all Char.isDigit then some (-(digitsVal ds : Int)) else none
  | '+' :: ds =>
    if ds.isEmpty then none
    else if ds.all Char.isDigit then some (digitsVal ds : Int) else none
  | ds =>
    if ds.all Char.isDigit then some (digitsVal ds : Int) else none

/-- Python `href.rstrip('/')`: remove every trailing slash. -/
def rstripSlashes (l : List Char) : List Char :=
  (l.reverse.dropWhile (fun c => c = '/')).reverse

/-- Python `s.split('/')[-1]`: the text after the last slash (the whole string
when no slash occurs; `''.split('/')[-1]` is the empty string). -/
def lastSegment (l : List Char) : List Char :=
  (l.reverse.takeWhile (fun c => c ≠ '/')).reverse

/-- Line 61: `int(a['href'].rstrip('/').split('/')[-1])`, with the
`ValueError` of a non-numeric segment modelled as `none`. -/
def pageNumberOf (href : String) : Option Int :=
  pyInt (String.mk (lastSegment (rstripSlashes href.toList)))

/-- One `img` tag, holding the three attributes the code reads. An absent
attribute is `none`; `img.get(attr, '')` is modelled by `Option.getD _ ""`. -/
structure ImgTag where
  src : Option String
  dataSrc : Option String
  dataLazySrc : Option String
deriving DecidableEq

/-- One fetched-and-parsed page, holding exactly the queries the code makes of
the soup. `entryTitle`/`firstH1` are the stripped texts of
`soup.find('h1', class_='entry-title')` and `soup.find('h1')`;
`pagination` is `some hrefs` when `soup.find('div', class_='pagination')`
exists, with the hrefs of its `a[href]` tags in document order. -/
structure PageDoc where
  entryTitle : Option String
  firstH1 : Option String
  imgs : List ImgTag
  pagination : Option (List String)
deriving DecidableEq

/-- Outcome of one `session.get` + parse: either a raised exception
(timeout, connection error, parse crash) or a parsed body with HTTP status. -/
inductive FetchResult where
  | exn : FetchResult
  | ok : Nat → PageDoc → FetchResult
deriving DecidableEq

/-- The HTTP collaborator: what fetching each URL yields. -/
structure World where
  fetch : String → FetchResult

/-- The crawl result, `{'title': ..., 'images': ...}` of lines 101-104. -/
structure GalleryInfo where
  title : String
  images : List String
deriving DecidableEq

/-- Lines 36-40 (and 81-85): scan `img` tags in document order, keep each
`src` passing `filterOk`, appending in order. -/
def primaryImages (imgs : List ImgTag) : List String :=
  imgs.foldl
    (fun acc im =>
      let src := im.src.getD ""
      if filterOk src then acc ++ [src] else acc)
    []

/-- Lines 44-48: for each `img` tag, for `attr` in
`['data-src', 'data-lazy-src']`, append the value when it passes `filterOk`.
There is no `break` between the two attribute reads. -/
def fallbackImages (imgs : List ImgTag) : List String :=
  imgs.foldl
    (fun acc im =>
      [im.dataSrc, im.dataLazySrc].foldl
        (fun acc2 a =>
          let src := a.getD ""
          if filterOk src then acc2 ++ [src] else acc2)
        acc)
    []

/-- One attribute read: keep the value (with `''` default) when it passes
`filterOk`. -/
def srcKeep (o : Option String) : Option String :=
  let src := o.getD ""
  if filterOk src then some src else none

/-- What one `img` element contributes to the fallback pass, reading
`data-src` then `data-lazy-src` and filtering each. Used to characterise
`fallbackImages`. -/
def attrContribution (im : ImgTag) : List String :=
  [im.dataSrc, im.dataLazySrc].filterMap srcKeep

/-- Lines 36-48: the primary scan, then — only when it produced nothing —
the lazy-load fallback scan. -/
def extractPageImages (imgs : List ImgTag) : List String :=
  let images := primaryImages imgs
  if images = [] then fallbackImages imgs else images

/-- Lines 27-30: the `entry-title` heading text, else the first `h1` text,
else the placeholder `'Unknown_Comic'`. -/
def rawTitle (doc : PageDoc) : String :=
  match doc.entryTitle with
  | some t => t
  | none =>
    match doc.firstH1 with
    | some t => t
    | none => "Unknown_Comic"

/-- Lines 27-33: title lookup followed by sanitization. -/
def extractTitle (doc : PageDoc) : String :=
  sanitize (rawTitle doc)

/-- Lines 57-64: pair each pagination href with its parsed page number,
silently skipping hrefs whose final segment is not an integer. -/
def pageLinks (hrefs : List String) : List (Int × String) :=
  hrefs.filterMap (fun h => (pageNumberOf h).map (fun n => (n, h)))

/-- Stable insertion of a numbered link before the first strictly larger key. -/
def insertByNum (p : Int × String) : List (Int × String) → List (Int × String)
  | [] => [p]
  | q :: qs => if q.1 < p.1 then q :: insertByNum p qs else p :: q :: qs

/-- Line 67: `sorted(page_links, key=lambda x: x[0])`. Python's sort is
stable; stable sorting by the first component is modelled by insertion sort
that never reorders equal keys. -/
def sortByNum : List (Int × String) → List (Int × String)
  | [] => []
  | p :: ps => insertByNum p (sortByNum ps)

/-- Lines 51-69: `all_pages = [url]`, then — when a pagination container
exists — append each sorted link's URL unless that exact string is already
present. -/
def allPagesOf (url : String) (doc : PageDoc) : List String :=
  match doc.pagination with
  | none => [url]
  | some hrefs =>
    (sortByNum (pageLinks hrefs)).foldl
      (fun acc nl => if nl.2 ∈ acc then acc else acc ++ [nl.2]) [url]

/-- Lines 72-91: the page loop. The entry page reuses the already-parsed soup;
any other page is fetched WITHOUT `raise_for_status`, so only a raised
exception aborts that page's unit of work (the `except` prints and
continues, contributing nothing). Each processed page appends its
primary-strategy images to the accumulator. -/
def crawlStep (w : World) (url : String) (entryDoc : PageDoc)
    (acc : List String) (p : String) : List String :=
  if p ≠ url then
    match w.fetch p with
    | FetchResult.exn => acc
    | FetchResult.ok _ d => acc ++ primaryImages d.imgs
  else acc ++ primaryImages entryDoc.imgs

/-- The fold of `crawlStep` over the ordered page list. -/
def crawlLoop (w : World) (url : String) (entryDoc : PageDoc)
    (pages : List String) (acc : List String) : List String :=
  pages.foldl (crawlStep w url entryDoc) acc

/-- Lines 36-91: the full image accumulator of one crawl, before dedup —
the entry page's extracted images followed by every page's loop
contribution in page-number order. -/
def crawlAccum (w : World) (url : String) (entryDoc : PageDoc) : List String :=
  crawlLoop w url entryDoc (allPagesOf url entryDoc) (extractPageImages entryDoc.imgs)

/-- The accumulated pre-dedup image list of a crawl whose entry fetch
succeeded (empty when it failed; only used under a success hypothesis). -/
def crawlAccumOf (w : World) (url : String) : List String :=
  match w.fetch url with
  | FetchResult.exn => []
  | FetchResult.ok _ doc => crawlAccum w url doc

/-- Lines 93-99: one-pass dedup. The code keeps a `seen` set next to
`unique_images`; since `seen` always holds exactly the elements of the
accumulated output, `img not in seen` is modelled as `img ∉ acc`. -/
def dedupAux : List String → List String → List String
  | acc, [] => acc
  | acc, x :: xs => if x ∈ acc then dedupAux acc xs else dedupAux (acc ++ [x]) xs

/-- Lines 93-99: remove duplicates while preserving first-seen order. -/
def pyDedup (l : List String) : List String := dedupAux [] l

/-- Lines 19-108, `ComicDownloader.get_comic_info`: fetch and parse the entry
page (`raise_for_status` raises for status ≥ 400 — any exception in the
outer `try` returns `None`), extract the title and entry images, build the
page order from pagination links, run the page loop, dedup, and return the
gallery record. -/
def get_comic_info (w : World) (url : String) : Option GalleryInfo :=
  match w.fetch url with
  | FetchResult.exn => none
  | FetchResult.ok status doc =>
    if 400 ≤ status then none
    else
      some { title := extractTitle doc
             images := pyDedup (crawlAccum w url doc) }

/-- The path component of `urlparse(url)`: drop the fragment, the query and —
when the URL is absolute (`scheme://netloc/...`) — the scheme and network
location. Modelled for the absolute http(s) URLs this program handles. -/
def afterSchemeSep : List Char → Option (List Char)
  | ':' :: '/' :: '/' :: rest => some rest
  | _ :: rest => afterSchemeSep rest
  | [] => none

/-- Line 119: `urlparse(img_url).path`. -/
def urlPath (url : String) : String :=
  let noFrag := url.toList.takeWhile (fun c => c ≠ '#')
  let noQuery := noFrag.takeWhile (fun c => c ≠ '?')
  match afterSchemeSep noQuery with
  | some rest => String.mk (rest.dropWhile (fun c => c ≠ '/'))
  | none => String.mk noQuery

/-- Line 119: `os.path.basename(path)` — the text after the last slash. -/
def basename (p : String) : String :=
  String.mk ((p.toList.reverse.takeWhile (fun c => c ≠ '/')).reverse)

/-- Python `f"{i:03d}"`: decimal digits of `i`, zero-padded to width 3. -/
def pad3 (i : Nat) : String :=
  let s := toString i
  String.mk (List.replicate (3 - s.length) '0' ++ s.toList)

/-- Lines 119-121: the target filename — the URL path's basename, or
`image_{i:03d}.jpg` when the basename is empty (`i` is the 1-based index). -/
def deriveName (i : Nat) (url : String) : String :=
  let n := basename (urlPath url)
  if n = "" then "image_" ++ pad3 i ++ ".jpg" else n

/-- Python `enumerate(urls, 1)`. -/
def enumFrom : Nat → List String → List (Nat × String)
  | _, [] => []
  | n, x :: xs => (n, x) :: enumFrom (n + 1) xs

/-- Downloader state: the success counter, the files present in the output
directory, and the URLs for which an HTTP request was issued. -/
structure DlState where
  downloaded : Nat
  files : List String
  fetched : List String
deriving DecidableEq

/-- Lines 116-143: process each `(index, url)` pair in order. When the
derived filename already exists the pair is skipped with no request. When a
request is issued, `dl url = true` models a fetch + status check + write
that succeeds (incrementing the counter and creating the file) and `false`
models the caught per-image exception, which leaves the counter unchanged
(the failure is modelled as occurring before the file is created). -/
def downloadLoop (dl : String → Bool) : List (Nat × String) → DlState → DlState
  | [], st => st
  | (i, u) :: rest, st =>
    let name := deriveName i u
    if name ∈ st.files then downloadLoop dl rest st
    else if dl u then
      downloadLoop dl rest
        { downloaded := st.downloaded + 1
          files := st.files ++ [name]
          fetched := st.fetched ++ [u] }
    else
      downloadLoop dl rest { st with fetched := st.fetched ++ [u] }

/-- Lines 110-145, `ComicDownloader.download_images`: run the loop over the
enumerated URL list against the files initially on disk. The Python function
returns the final `downloaded` counter. -/
def download_images (dl : String → Bool) (files0 : List String)
    (urls : List String) : DlState :=
  downloadLoop dl (enumFrom 1 urls) { downloaded := 0, files := files0, fetched := [] }

/-! ### Library of facts about the embedded definitions -/

theorem dedupAux_mem (l : List String) : ∀ (acc : List String) (x : String),
    x ∈ dedupAux acc l ↔ x ∈ acc ∨ x ∈ l := by
  induction l with
  | nil => intro acc x; simp [dedupAux]
  | cons a t ih =>
    intro acc x
    by_cases ha : a ∈ acc
    · rw [dedupAux, if_pos ha, ih]
      constructor
      · rintro (h | h)
        · exact Or.inl h
        · exact Or.inr (List.mem_cons_of_mem a h)
      · rintro (h | h)
        · exact Or.inl h
        · rcases List.mem_cons.mp h with rfl | h2
          · exact Or.inl ha
          · exact Or.inr h2
    · rw [dedupAux, if_neg ha, ih]
      simp [List.mem_append, List.mem_cons, or_assoc]

theorem dedupAux_nodup (l : List String) : ∀ acc : List String,
    acc.Nodup → (dedupAux acc l).Nodup := by
  induction l with
  | nil => intro acc h; simpa [dedupAux] using h
  | cons a t ih =>
    intro acc h
    by_cases ha : a ∈ acc
    · rw [dedupAux, if_pos ha]; exact ih acc h
    · rw [dedupAux, if_neg ha]
      refine ih (acc ++ [a]) ?_
      rw [List.nodup_append]
      refine ⟨h, List.nodup_singleton a, ?_⟩
      intro x hx hxa
      rw [List.mem_singleton] at hxa
      subst hxa
      exact ha hx

theorem dedupAux_sublist (l : List String) : ∀ acc : List String,
    List.Sublist (dedupAux acc l) (acc ++ l) := by
  induction l with
  | nil => intro acc; simp [dedupAux]
  | cons a t ih =>
    intro acc
    by_cases ha : a ∈ acc
    · rw [dedupAux, if_pos ha]
      exact (ih acc).trans (List.Sublist.append_left (List.sublist_cons_self a t) acc)
    · rw [dedupAux, if_neg ha]
      have := ih (acc ++ [a])
      simpa [List.append_assoc] using this

theorem dedupAux_append (l₁ l₂ : List String) : ∀ acc : List String,
    dedupAux acc (l₁ ++ l₂) = dedupAux (dedupAux acc l₁) l₂ := by
  induction l₁ with
  | nil => intro acc; simp [dedupAux]
  | cons a t ih =>
    intro acc
    by_cases ha : a ∈ acc
    · rw [List.cons_append, dedupAux, if_pos ha, dedupAux, if_pos ha, ih]
    · rw [List.cons_append, dedupAux, if_neg ha, dedupAux, if_neg ha, ih]

theorem dedupAux_of_all_mem (l : List String) : ∀ acc : List String,
    (∀ x ∈ l, x ∈ acc) → dedupAux acc l = acc := by
  induction l with
  | nil => intro acc _; rfl
  | cons a t ih =>
    intro acc h
    rw [dedupAux, if_pos (h a (List.mem_cons_self a t))]
    exact ih acc (fun x hx => h x (List.mem_cons_of_mem a hx))

theorem pyDedup_mem (l : List String) (x : String) : x ∈ pyDedup l ↔ x ∈ l := by
  unfold pyDedup; rw [dedupAux_mem]; simp

theorem pyDedup_nodup (l : List String) : (pyDedup l).Nodup :=
  dedupAux_nodup l [] List.nodup_nil

theorem pyDedup_sublist (l : List String) : List.Sublist (pyDedup l) l := by
  have := dedupAux_sublist l []
  simpa using this

theorem pyDedup_append_self (l : List String) : pyDedup (l ++ l) = pyDedup l := by
  unfold pyDedup
  rw [dedupAux_append]
  exact dedupAux_of_all_mem l (dedupAux [] l)
    (fun x hx => (dedupAux_mem l [] x).mpr (Or.inr hx))

theorem mem_of_mem_trimChars {a : Char} {x : List Char} (h : a ∈ trimChars x) :
    a ∈ x := by
  unfold trimChars at h
  rw [List.mem_reverse] at h
  have h2 := (List.dropWhile_sublist isPyWS).subset h
  rw [List.mem_reverse] at h2
  exact (List.dropWhile_sublist isPyWS).subset h2

theorem dropWhile_head_false (p : Char → Bool) (l : List Char) :
    ∀ a : Char, (l.dropWhile p).head? = some a → p a = false := by
  induction l with
  | nil => intro a h; simp [List.dropWhile] at h
  | cons b t ih =>
    intro a h
    rw [List.dropWhile_cons] at h
    by_cases hb : p b
    · rw [if_pos hb] at h; exact ih a h
    · rw [if_neg hb] at h
      simp only [List.head?_cons, Option.some.injEq] at h
      subst h
      exact Bool.eq_false_iff.mpr hb

theorem dropWhile_eq_self_of_head (p : Char → Bool) (l : List Char)
    (h : ∀ a : Char, l.head? = some a → p a = false) : l.dropWhile p = l := by
  cases l with
  | nil => rfl
  | cons b t =>
    rw [List.dropWhile_cons, if_neg]
    rw [h b rfl]
    simp

theorem dropWhile_idem (p : Char → Bool) (l : List Char) :
    (l.dropWhile p).dropWhile p = l.dropWhile p :=
  dropWhile_eq_self_of_head p (l.dropWhile p) (dropWhile_head_false p l)

theorem trimChars_idem (l : List Char) : trimChars (trimChars l) = trimChars l := by
  unfold trimChars
  have hA : ((((l.dropWhile isPyWS).reverse.dropWhile isPyWS).reverse).dropWhile isPyWS)
      = ((l.dropWhile isPyWS).reverse.dropWhile isPyWS).reverse := by
    apply dropWhile_eq_self_of_head
    intro a ha
    have hsplit :
        (l.dropWhile isPyWS).reverse.takeWhile isPyWS ++
          (l.dropWhile isPyWS).reverse.dropWhile isPyWS
          = (l.dropWhile isPyWS).reverse :=
      List.takeWhile_append_dropWhile isPyWS (l.dropWhile isPyWS).reverse
    have hu2 : l.dropWhile isPyWS
        = ((l.dropWhile isPyWS).reverse.dropWhile isPyWS).reverse ++
            ((l.dropWhile isPyWS).reverse.takeWhile isPyWS).reverse := by
      rw [← List.reverse_append, hsplit, List.reverse_reverse]
    have hhead : (l.dropWhile isPyWS).head? = some a := by
      rw [hu2, List.head?_append, ha]
      rfl
    exact dropWhile_head_false isPyWS l a hhead
  rw [hA, List.reverse_reverse, dropWhile_idem]

theorem sanitize_idem (s : String) : sanitize (sanitize s) = sanitize s := by
  show String.mk (trimChars (stripForbidden (trimChars (stripForbidden s.toList))))
      = String.mk (trimChars (stripForbidden s.toList))
  congr 1
  have h1 : stripForbidden (trimChars (stripForbidden s.toList))
      = trimChars (stripForbidden s.toList) := by
    unfold stripForbidden
    rw [List.filter_eq_self]
    intro a ha
    have ham : a ∈ stripForbidden s.toList := mem_of_mem_trimChars ha
    exact (List.mem_filter.mp ham).2
  rw [h1, trimChars_idem]

theorem primaryAux (imgs : List ImgTag) : ∀ acc : List String,
    imgs.foldl
        (fun acc im =>
          let src := im.src.getD ""
          if filterOk src then acc ++ [src] else acc)
        acc
      = acc ++ (imgs.map ImgTag.src).filterMap srcKeep := by
  induction imgs with
  | nil => intro acc; simp
  | cons im t ih =>
    intro acc
    by_cases h : filterOk (im.src.getD "") <;>
      simp [srcKeep, h, ih, List.filterMap_cons, List.append_assoc]

theorem primaryImages_eq (imgs : List ImgTag) :
    primaryImages imgs = (imgs.map ImgTag.src).filterMap srcKeep := by
  unfold primaryImages
  rw [primaryAux]
  simp

theorem innerPair (a b : Option String) (acc : List String) :
    [a, b].foldl
        (fun acc2 x =>
          let src := x.getD ""
          if filterOk src then acc2 ++ [src] else acc2)
        acc
      = acc ++ [a, b].filterMap srcKeep := by
  by_cases h1 : filterOk (a.getD "") <;> by_cases h2 : filterOk (b.getD "") <;>
    simp [srcKeep, h1, h2, List.filterMap_cons]

theorem fallbackAux (imgs : List ImgTag) : ∀ acc : List String,
    imgs.foldl
        (fun acc im =>
          [im.dataSrc, im.dataLazySrc].foldl
            (fun acc2 a =>
              let src := a.getD ""
              if filterOk src then acc2 ++ [src] else acc2)
            acc)
        acc
      = acc ++ (imgs.map attrContribution).flatten := by
  induction imgs with
  | nil => intro acc; simp
  | cons im t ih =>
    intro acc
    rw [List.foldl_cons, ih, innerPair]
    simp [attrContribution, List.append_assoc]

theorem fallbackImages_eq (imgs : List ImgTag) :
    fallbackImages imgs = (imgs.map attrContribution).flatten := by
  unfold fallbackImages
  rw [fallbackAux]
  simp

theorem crawlStep_mem {w : World} {url : String} {d : PageDoc}
    {acc : List String} {x : String} (p : String) (h : x ∈ acc) :
    x ∈ crawlStep w url d acc p := by
  unfold crawlStep
  by_cases hp : p ≠ url
  · rw [if_pos hp]
    cases w.fetch p with
    | exn => exact h
    | ok s dq => exact List.mem_append_left _ h
  · rw [if_neg hp]
    exact List.mem_append_left _ h

theorem crawlLoop_mem {w : World} {url : String} {d : PageDoc} {x : String} :
    ∀ (pages : List String) (acc : List String), x ∈ acc →
      x ∈ crawlLoop w url d pages acc := by
  intro pages
  induction pages with
  | nil => intro acc h; exact h
  | cons p t ih =>
    intro acc h
    rw [crawlLoop, List.foldl_cons]
    exact ih (crawlStep w url d acc p) (crawlStep_mem p h)

theorem crawlLoop_page_mem {w : World} {url : String} {d : PageDoc}
    {q : String} {s2 : Nat} {d2 : PageDoc} {x : String}
    (hq : w.fetch q = FetchResult.ok s2 d2) (hne : q ≠ url)
    (hx : x ∈ primaryImages d2.imgs) :
    ∀ (pages : List String) (acc : List String), q ∈ pages →
      x ∈ crawlLoop w url d pages acc := by
  intro pages
  induction pages with
  | nil => intro acc h; exact absurd h (List.not_mem_nil q)
  | cons p t ih =>
    intro acc hmem
    rw [crawlLoop, List.foldl_cons]
    rcases List.mem_cons.mp hmem with rfl | hmem2
    · apply crawlLoop_mem t
      unfold crawlStep
      rw [if_pos hne, hq]
      exact List.mem_append_right _ hx
    · exact ih (crawlStep w url d acc p) hmem2

theorem get_comic_info_eq_some {w : World} {url : String} {g : GalleryInfo}
    (h : get_comic_info w url = some g) :
    ∃ (s : Nat) (doc : PageDoc), w.fetch url = FetchResult.ok s doc ∧ s < 400 ∧
      g = { title := extractTitle doc, images := pyDedup (crawlAccum w url doc) } := by
  unfold get_comic_info at h
  split at h
  next => simp at h
  next s doc hf =>
    by_cases h4 : 400 ≤ s
    · rw [if_pos h4] at h; simp at h
    · rw [if_neg h4] at h
      exact ⟨s, doc, hf, Nat.lt_of_not_le h4, (Option.some.inj h).symm⟩

theorem crawlAccumOf_ok {w : World} {url : String} {s : Nat} {doc : PageDoc}
    (h : w.fetch url = FetchResult.ok s doc) :
    crawlAccumOf w url = crawlAccum w url doc := by
  unfold crawlAccumOf
  rw [h]

theorem downloadLoop_count_inv (dl : String → Bool) :
    ∀ (items : List (Nat × String)) (st : DlState),
      st.downloaded = (st.fetched.filter dl).length →
      (downloadLoop dl items st).downloaded
        = ((downloadLoop dl items st).fetched.filter dl).length := by
  intro items
  induction items with
  | nil => intro st h; exact h
  | cons iu rest ih =>
    intro st h
    obtain ⟨i, u⟩ := iu
    rw [downloadLoop]
    by_cases hex : deriveName i u ∈ st.files
    · rw [if_pos hex]; exact ih st h
    · rw [if_neg hex]
      by_cases hdl : dl u
      · rw [if_pos hdl]
        apply ih
        simp [List.filter_append, hdl, h]
      · rw [if_neg hdl]
        apply ih
        simp [List.filter_append, hdl, h]

/-! ### Test fixtures for witnesses and counterexamples -/

/-- A trivial page: no headings, no images, no pagination. -/
def docTriv : PageDoc :=
  { entryTitle := none, firstH1 := none, imgs := [], pagination := none }

/-- A world in which every fetch succeeds with the trivial page. -/
def wTriv : World := ⟨fun _ => FetchResult.ok 200 docTriv⟩

/-- An `img` tag with a passing `src`. -/
def tagSrc : ImgTag := ⟨some "https://www.177picyy.com/x.jpg", none, none⟩

/-- An `img` tag with no `src` but a passing `data-src`. -/
def tagLazy : ImgTag := ⟨none, some "https://www.177picyy.com/y.jpg", none⟩

/-- An `img` tag whose `data-src` AND `data-lazy-src` both pass the filter. -/
def tagBoth : ImgTag :=
  ⟨none, some "https://www.177picyy.com/a.jpg", some "https://www.177picyy.com/b.jpg"⟩

/-! ### The claims -/

/-- C1: for every crawl that succeeds, the `images` sequence of the returned
`GalleryInfo` has no duplicate URL (exact string equality) and preserves
first-seen order across the concatenation of all pages in page-number order
(it is the stable one-pass dedup of that accumulated concatenation: a
duplicate-free, order-preserving sublist with the same members); in
particular the dedup maps the accumulated input `[A, B, A, C, B]` to
`[A, B, C]`. -/
theorem claim1_images_nodup_first_seen :
    (∀ (w : World) (url : String) (g : GalleryInfo),
        get_comic_info w url = some g →
          g.images = pyDedup (crawlAccumOf w url) ∧
          g.images.Nodup ∧
          List.Sublist g.images (crawlAccumOf w url) ∧
          ∀ x : String, x ∈ crawlAccumOf w url ↔ x ∈ g.images) ∧
    ∀ A B C : String, A ≠ B → A ≠ C → B ≠ C →
      pyDedup [A, B, A, C, B] = [A, B, C] := by
  constructor
  · intro w url g h
    obtain ⟨s, doc, hf, h4, hg⟩ := get_comic_info_eq_some h
    subst hg
    rw [crawlAccumOf_ok hf]
    refine ⟨rfl, pyDedup_nodup _, pyDedup_sublist _, ?_⟩
    intro x
    exact (pyDedup_mem _ x).symm
  · intro A B C hab hac hbc
    have hba : ¬(B = A) := fun h => hab h.symm
    have hca : ¬(C = A) := fun h => hac h.symm
    have hcb : ¬(C = B) := fun h => hbc h.symm
    simp [pyDedup, dedupAux, hba, hca, hcb]

theorem claim1_witness :
    (GalleryInfo.images ⟨"Unknown_Comic", []⟩).Nodup ∧
    pyDedup ["a", "b", "a", "c", "b"] = ["a", "b", "c"] :=
  ⟨(claim1_images_nodup_first_seen.1 wTriv "e" ⟨"Unknown_Comic", []⟩ (by decide)).2.1,
   claim1_images_nodup_first_seen.2 "a" "b" "c" (by decide) (by decide) (by decide)⟩

/-- C3: the lazy-load fallback extraction runs if and only if the primary
`src`-attribute extraction yields zero images for the page; when the primary
pass yields at least one image, the page's extraction result is the primary
list and does not depend on the lazy-load attributes at all (any tag list
with the same `src` attributes extracts identically). -/
theorem claim3_fallback_trigger :
    ∀ imgs : List ImgTag,
      (primaryImages imgs = [] → extractPageImages imgs = fallbackImages imgs) ∧
      (primaryImages imgs ≠ [] →
        extractPageImages imgs = primaryImages imgs ∧
        ∀ imgs' : List ImgTag, imgs'.map ImgTag.src = imgs.map ImgTag.src →
          extractPageImages imgs' = extractPageImages imgs) := by
  intro imgs
  constructor
  · intro h
    simp [extractPageImages, h]
  · intro h
    have he : extractPageImages imgs = primaryImages imgs := by
      simp [extractPageImages, h]
    refine ⟨he, ?_⟩
    intro imgs' hmap
    have hp : primaryImages imgs' = primaryImages imgs := by
      rw [primaryImages_eq, primaryImages_eq, hmap]
    have h' : primaryImages imgs' ≠ [] := by rw [hp]; exact h
    have he' : extractPageImages imgs' = primaryImages imgs' := by
      simp [extractPageImages, h']
    rw [he', hp, he]

theorem claim3_witness :
    extractPageImages [tagSrc] = primaryImages [tagSrc] ∧
    extractPageImages [tagLazy] = fallbackImages [tagLazy] :=
  ⟨((claim3_fallback_trigger [tagSrc]).2 (by decide)).1,
   (claim3_fallback_trigger [tagLazy]).1 (by decide)⟩

theorem claim4_counterexample :
    fallbackImages [tagBoth]
      = ["https://www.177picyy.com/a.jpg", "https://www.177picyy.com/b.jpg"] ∧
    (fallbackImages [tagBoth]).length = 2 :=
  ⟨by decide, by decide⟩

/-- C4 (amended): in the fallback pass the two lazy-load attributes are read
in the fixed order `data-src` before `data-lazy-src`, with the same
domain+extension filter applied to each read; every passing value is
collected, so an element contributes at most two URLs, and an element whose
two attributes both pass contributes both URLs with the `data-src` value
first (there is no short-circuit after a passing `data-src`). -/
theorem claim4_fallback_priority_amended :
    (∀ imgs : List ImgTag, fallbackImages imgs = (imgs.map attrContribution).flatten) ∧
    (∀ im : ImgTag, (attrContribution im).length ≤ 2) ∧
    ∀ im : ImgTag,
      filterOk (im.dataSrc.getD "") = true →
      filterOk (im.dataLazySrc.getD "") = true →
      attrContribution im = [im.dataSrc.getD "", im.dataLazySrc.getD ""] := by
  refine ⟨fallbackImages_eq, ?_, ?_⟩
  · intro im
    by_cases h1 : filterOk (im.dataSrc.getD "") <;>
      by_cases h2 : filterOk (im.dataLazySrc.getD "") <;>
        simp [attrContribution, srcKeep, h1, h2, List.filterMap_cons]
  · intro im h1 h2
    simp [attrContribution, srcKeep, h1, h2, List.filterMap_cons]

theorem claim4_witness :
    attrContribution tagBoth
      = ["https://www.177picyy.com/a.jpg", "https://www.177picyy.com/b.jpg"] :=
  claim4_fallback_priority_amended.2.2 tagBoth (by decide) (by decide)

theorem claim5_counterexample :
    extractTitle
        { entryTitle := some "::", firstH1 := none, imgs := [], pagination := none }
      = "" := by
  decide

/-- C5 (amended): the extracted gallery title is the entry-title heading's
text if present, else the first `h1` heading's text, else the fixed
placeholder `Unknown_Comic`, sanitized by stripping the characters
`\ / * ? : " < > |` (no substitution character inserted — e.g.
`My/Comic: "Vol 1"` becomes `MyComic Vol 1`) and trimming whitespace; the
result may be empty when the chosen heading text consists entirely of
forbidden characters and whitespace. -/
theorem claim5_title_amended :
    (∀ (d : PageDoc) (t : String), d.entryTitle = some t → extractTitle d = sanitize t) ∧
    (∀ (d : PageDoc) (t : String),
      d.entryTitle = none → d.firstH1 = some t → extractTitle d = sanitize t) ∧
    (∀ d : PageDoc, d.entryTitle = none → d.firstH1 = none →
      extractTitle d = sanitize "Unknown_Comic") ∧
    sanitize "Unknown_Comic" = "Unknown_Comic" ∧
    sanitize "My/Comic: \"Vol 1\"" = "MyComic Vol 1" := by
  refine ⟨?_, ?_, ?_, by decide, by decide⟩
  · intro d t h
    unfold extractTitle rawTitle
    rw [h]
  · intro d t h1 h2
    unfold extractTitle rawTitle
    rw [h1, h2]
  · intro d h1 h2
    unfold extractTitle rawTitle
    rw [h1, h2]

theorem claim5_witness :
    extractTitle
        { entryTitle := some "A/B", firstH1 := none, imgs := [], pagination := none }
      = sanitize "A/B" :=
  claim5_title_amended.1
    { entryTitle := some "A/B", firstH1 := none, imgs := [], pagination := none }
    "A/B" rfl

/-- C10: title sanitization (strip the forbidden characters, then trim
whitespace) is idempotent, so the driver's second application of the same
sanitization to the crawler's already-sanitized title is a no-op for every
title. -/
theorem claim10_sanitize_idempotent :
    (∀ s : String, sanitize (sanitize s) = sanitize s) ∧
    ∀ (w : World) (url : String) (g : GalleryInfo),
      get_comic_info w url = some g → sanitize g.title = g.title := by
  constructor
  · exact sanitize_idem
  · intro w url g h
    obtain ⟨s, doc, hf, h4, hg⟩ := get_comic_info_eq_some h
    subst hg
    show sanitize (extractTitle doc) = extractTitle doc
    unfold extractTitle
    exact sanitize_idem (rawTitle doc)

theorem claim10_witness : sanitize "Unknown_Comic" = "Unknown_Comic" :=
  claim10_sanitize_idempotent.2 wTriv "e" ⟨"Unknown_Comic", []⟩ (by decide)

/-- C2: for every entry page, the page-order list is built by parsing each
pagination link's page number (strip trailing slashes, split on `/`, parse
the final segment as an integer), silently skipping links whose final
segment does not parse, sorting the parsed links by page number ascending,
and starting from the entry URL while skipping exact-URL duplicates; hence
pagination links with numbers `[3, 1, 2]` in document order (plus a
non-numeric control link) yield the fetch order
`[entry, page1, page2, page3]`. -/
theorem claim2_pagination_order
    (url lx l1 l2 l3 : String) (doc : PageDoc)
    (hpag : doc.pagination = some [l3, lx, l1, l2])
    (h1 : pageNumberOf l1 = some 1) (h2 : pageNumberOf l2 = some 2)
    (h3 : pageNumberOf l3 = some 3) (hx : pageNumberOf lx = none)
    (n1 : l1 ≠ url) (n2 : l2 ≠ url) (n3 : l3 ≠ url)
    (d21 : l2 ≠ l1) (d31 : l3 ≠ l1) (d32 : l3 ≠ l2) :
    allPagesOf url doc = [url, l1, l2, l3] := by
  unfold allPagesOf
  rw [hpag]
  show List.foldl (fun acc nl => if nl.2 ∈ acc then acc else acc ++ [nl.2]) [url]
      (sortByNum (pageLinks [l3, lx, l1, l2])) = [url, l1, l2, l3]
  have hlinks : pageLinks [l3, lx, l1, l2] = [(3, l3), (1, l1), (2, l2)] := by
    simp [pageLinks, List.filterMap_cons, h1, h2, h3, hx]
  rw [hlinks]
  have hsort : sortByNum [(3, l3), (1, l1), (2, l2)] = [(1, l1), (2, l2), (3, l3)] := by
    simp [sortByNum, insertByNum]
  rw [hsort]
  simp [n1, n2, n3, d21, d31, d32]

/-- Entry URL used in the witness of the pagination-ordering claim. -/
def url2w : String := "https://www.177picyy.com/html/2020/01/c.html"

/-- Entry page carrying pagination links numbered 3, non-numeric, 1, 2
in document order. -/
def doc2w : PageDoc :=
  { entryTitle := none, firstH1 := none, imgs := []
    pagination := some
      ["https://www.177picyy.com/html/2020/01/c.html/3/",
       "https://www.177picyy.com/html/2020/01/c.html/next",
       "https://www.177picyy.com/html/2020/01/c.html/1/",
       "https://www.177picyy.com/html/2020/01/c.html/2/"] }

theorem claim2_witness :
    allPagesOf url2w doc2w
      = [url2w,
         "https://www.177picyy.com/html/2020/01/c.html/1/",
         "https://www.177picyy.com/html/2020/01/c.html/2/",
         "https://www.177picyy.com/html/2020/01/c.html/3/"] :=
  claim2_pagination_order url2w
    "https://www.177picyy.com/html/2020/01/c.html/next"
    "https://www.177picyy.com/html/2020/01/c.html/1/"
    "https://www.177picyy.com/html/2020/01/c.html/2/"
    "https://www.177picyy.com/html/2020/01/c.html/3/"
    doc2w rfl (by decide) (by decide) (by decide) (by decide)
    (by decide) (by decide) (by decide) (by decide) (by decide) (by decide)

/-- The entry page's fetch or parse failed: either an exception was raised or
`raise_for_status` would raise (status ≥ 400). -/
def entryFailed (w : World) (url : String) : Prop :=
  w.fetch url = FetchResult.exn ∨
    ∃ (s : Nat) (d : PageDoc), w.fetch url = FetchResult.ok s d ∧ 400 ≤ s

/-- C6: a failure while fetching or parsing the entry page is the only fatal
condition — the crawl yields no result exactly when the entry fetch fails;
when the entry fetch succeeds the crawl always returns a result, and a
failure on any individual subsequent page is non-fatal: every image of
every other successfully fetched page is still in the returned image
list. -/
theorem claim6_entry_fatal_pages_nonfatal :
    ∀ (w : World) (url : String),
      (get_comic_info w url = none ↔ entryFailed w url) ∧
      ∀ (s : Nat) (doc : PageDoc), w.fetch url = FetchResult.ok s doc → s < 400 →
        ∃ g : GalleryInfo, get_comic_info w url = some g ∧
          ∀ q ∈ allPagesOf url doc, q ≠ url →
            ∀ (s2 : Nat) (d2 : PageDoc), w.fetch q = FetchResult.ok s2 d2 →
              ∀ x ∈ primaryImages d2.imgs, x ∈ g.images := by
  intro w url
  constructor
  · cases hf : w.fetch url with
    | exn =>
      constructor
      · intro _; exact Or.inl hf
      · intro _; simp [get_comic_info, hf]
    | ok s doc =>
      by_cases h4 : 400 ≤ s
      · constructor
        · intro _; exact Or.inr ⟨s, doc, hf, h4⟩
        · intro _; simp [get_comic_info, hf, h4]
      · constructor
        · intro hnone
          exfalso
          rw [get_comic_info, hf] at hnone
          simp [h4] at hnone
        · rintro (hexn | ⟨s2, d2, hok, h42⟩)
          · rw [hf] at hexn; simp at hexn
          · rw [hf] at hok
            injection hok with hs hd
            subst hs
            exact absurd h42 h4
  · intro s doc hf h4
    refine ⟨{ title := extractTitle doc, images := pyDedup (crawlAccum w url doc) }, ?_, ?_⟩
    · simp [get_comic_info, hf, Nat.not_le_of_lt h4]
    · intro q hq hqne s2 d2 hfq x hx
      show x ∈ pyDedup (crawlAccum w url doc)
      rw [pyDedup_mem]
      unfold crawlAccum
      exact crawlLoop_page_mem hfq hqne hx (allPagesOf url doc) _ hq

/-- A world in which every fetch raises. -/
def wExn : World := ⟨fun _ => FetchResult.exn⟩

theorem claim6_witness :
    get_comic_info wExn "u" = none ∧
    ∃ g : GalleryInfo, get_comic_info wTriv "e" = some g := by
  constructor
  · exact ((claim6_entry_fatal_pages_nonfatal wExn "u").1).mpr (Or.inl rfl)
  · obtain ⟨g, hg, _⟩ :=
      (claim6_entry_fatal_pages_nonfatal wTriv "e").2 200 docTriv rfl (by decide)
    exact ⟨g, hg⟩

/-- Entry-page image of the non-2xx scenario. -/
def tagOk7 : ImgTag := ⟨some "https://www.177picyy.com/p1.jpg", none, none⟩

/-- Image contained in the body of the page whose fetch returns HTTP 404. -/
def tag404 : ImgTag := ⟨some "https://www.177picyy.com/p404.jpg", none, none⟩

/-- Entry page with one image and a pagination link to page 2. -/
def doc7entry : PageDoc :=
  { entryTitle := some "T", firstH1 := none, imgs := [tagOk7]
    pagination := some ["https://www.177picyy.com/html/c.html/2/"] }

/-- The body served with the 404 response for page 2. -/
def doc7page2 : PageDoc :=
  { entryTitle := none, firstH1 := none, imgs := [tag404], pagination := none }

/-- A world where the entry page succeeds but page 2 returns HTTP 404 with a
parseable body. -/
def w7 : World :=
  ⟨fun u =>
    if u = "https://www.177picyy.com/html/c.html" then FetchResult.ok 200 doc7entry
    else if u = "https://www.177picyy.com/html/c.html/2/" then FetchResult.ok 404 doc7page2
    else FetchResult.exn⟩

/-- C7 (code evaluated at the failing input): a subsequent page whose fetch
returns HTTP 404 is NOT handled as a failure — the loop has no
`raise_for_status`, so the 404 body is parsed and its matching image URL is
included in the crawl result, contradicting the claim that such a page
contributes no images. -/
theorem claim7_non2xx_page_accepted :
    w7.fetch "https://www.177picyy.com/html/c.html/2/" = FetchResult.ok 404 doc7page2 ∧
    get_comic_info w7 "https://www.177picyy.com/html/c.html"
      = some { title := "T"
               images := ["https://www.177picyy.com/p1.jpg",
                          "https://www.177picyy.com/p404.jpg"] } :=
  ⟨by decide, by decide⟩

/-- C8: for every gallery whose entry page has no pagination container, the
returned image list is exactly the entry page's extracted images (primary
strategy, or fallback when the primary yields zero) deduplicated preserving
first occurrence — the re-scan of the entry page inside the page loop adds
only duplicates, which the final dedup removes. -/
theorem claim8_single_page_gallery :
    ∀ (w : World) (url : String) (s : Nat) (doc : PageDoc),
      w.fetch url = FetchResult.ok s doc → s < 400 → doc.pagination = none →
      get_comic_info w url
        = some { title := extractTitle doc
                 images := pyDedup (extractPageImages doc.imgs) } := by
  intro w url s doc hf h4 hpag
  have h4' : ¬400 ≤ s := Nat.not_le_of_lt h4
  have hacc : crawlAccum w url doc
      = extractPageImages doc.imgs ++ primaryImages doc.imgs := by
    unfold crawlAccum crawlLoop allPagesOf crawlStep
    rw [hpag]
    simp
  have himg : pyDedup (crawlAccum w url doc) = pyDedup (extractPageImages doc.imgs) := by
    rw [hacc]
    by_cases hp : primaryImages doc.imgs = []
    · rw [hp, List.append_nil]
    · have hex : extractPageImages doc.imgs = primaryImages doc.imgs := by
        simp [extractPageImages, hp]
      rw [hex, pyDedup_append_self]
  simp [get_comic_info, hf, h4', himg]

/-- A single-page gallery document with one matching image. -/
def doc8 : PageDoc :=
  { entryTitle := none, firstH1 := some "H"
    imgs := [⟨some "https://www.177picyy.com/z.png", none, none⟩]
    pagination := none }

/-- A world serving `doc8` for every URL. -/
def w8 : World := ⟨fun _ => FetchResult.ok 200 doc8⟩

theorem claim8_witness :
    get_comic_info w8 "e"
      = some { title := extractTitle doc8
               images := pyDedup (extractPageImages doc8.imgs) } :=
  claim8_single_page_gallery w8 "e" 200 doc8 rfl (by decide) rfl

/-- C9: a URL whose derived target filename (the URL path's basename, or
`image_{3-digit index}.jpg` when the basename is empty) already exists on
disk is skipped — the step issues no request and changes nothing — and the
returned value counts exactly the successfully downloaded images: the final
counter equals the number of requested URLs whose download succeeded. -/
theorem claim9_download_skip_count :
    (∀ (dl : String → Bool) (i : Nat) (u : String)
        (rest : List (Nat × String)) (st : DlState),
        deriveName i u ∈ st.files →
        downloadLoop dl ((i, u) :: rest) st = downloadLoop dl rest st) ∧
    ∀ (dl : String → Bool) (files0 urls : List String),
      (download_images dl files0 urls).downloaded
        = ((download_images dl files0 urls).fetched.filter dl).length := by
  constructor
  · intro dl i u rest st h
    simp [downloadLoop, h]
  · intro dl files0 urls
    exact downloadLoop_count_inv dl (enumFrom 1 urls)
      { downloaded := 0, files := files0, fetched := [] } rfl

theorem claim9_witness :
    downloadLoop (fun _ => true) [(1, "https://www.177picyy.com/a.jpg")]
        { downloaded := 0, files := ["a.jpg"], fetched := [] }
      = downloadLoop (fun _ => true) []
        { downloaded := 0, files := ["a.jpg"], fetched := [] } :=
  claim9_download_skip_count.1 (fun _ => true) 1 "https://www.177picyy.com/a.jpg" []
    { downloaded := 0, files := ["a.jpg"], fetched := [] } (by decide)

end Comic177
